import Mathlib

/-!
Verification of the memory-monitor core (`mem_monitor.py`) against its
natural-language specification.

The embedding is shallow: Python floats are modelled as exact rationals
(`ℚ`), the repeated `time.time()` calls inside one tick are modelled by a
single explicit `now` parameter, Python dictionaries (insertion ordered)
are modelled as association lists, and Python exceptions are modelled with
`Option`/`Except` (a `none`/`.error` result is a raised exception).  The
external samplers (`ps`, `free`) are modelled as an oracle stream of
pre-parsed rounds; the text-parsing adapters themselves are out of scope.
-/

namespace MemMonitor

/-- Result of a per-group `ProcessGroup.check`: `Ok` (return 0 with an "OK"
log line), `WarnedNow` (return 1, `warn()` was called and mail was sent),
`WarnedMuted` (return 1, only a ", muted" log line). -/
inductive Verdict
  | Ok
  | WarnedNow
  | WarnedMuted
deriving DecidableEq

/-- The module-level configuration loaded from `config.yml`
(`_IDLE_TIMEOUT_HOURS`, `_ACTIVE_USAGE`, `_UPDATE`, `_WARNING_COOLDOWN`,
`_MIN_IDLE_TIME`, `_CRITICAL_FRACTION`, `_TERMINATE_ACTIVE`,
`_TERMINATE_FRACTION`, `_TOTAL_MEMORY`).  `idle_timeout_hours` is the
`{memory fraction cutoff : idle hours}` dict, kept as an association list
in insertion order. -/
structure Config where
  idle_timeout_hours : List (ℚ × ℚ)
  active_usage : ℚ
  update : ℚ
  warning_cooldown : ℚ
  min_idle_time : ℚ
  critical_fraction : ℚ
  terminate_active : Bool
  terminate_fraction : ℚ
  total_memory : ℚ
deriving DecidableEq

/-- State of one tracked process group (`ProcessGroup.__init__`). -/
structure ProcessGroup where
  pgid : ℕ
  user : String
  memory : ℚ
  cputime : ℚ
  cputime_since_update : ℚ
  start_time : ℚ
  last_cpu_time : ℚ
  last_warning : Option ℚ
  total_warnings : ℕ
deriving DecidableEq

/-- Python `ProcessGroup.__init__(pgid, user, cputime, memory)`: both
`start_time` and `last_cpu_time` are initialised to the current time,
`last_warning` to `None` and `total_warnings` to 0. -/
def ProcessGroup.init (pgid : ℕ) (user : String) (cputime memory now : ℚ) :
    ProcessGroup :=
  { pgid := pgid
    user := user
    memory := memory
    cputime := cputime
    cputime_since_update := 0
    start_time := now
    last_cpu_time := now
    last_warning := none
    total_warnings := 0 }

/-- Python `ProcessGroup.idle_seconds`: `time.time() - self.last_cpu_time`. -/
def ProcessGroup.idle_seconds (g : ProcessGroup) (now : ℚ) : ℚ :=
  now - g.last_cpu_time

/-- Python `ProcessGroup.idle_hours`: `idle_seconds / _HOUR`. -/
def ProcessGroup.idle_hours (g : ProcessGroup) (now : ℚ) : ℚ :=
  g.idle_seconds now / 3600

/-- Python `ProcessGroup.memory_fraction`: `memory / _TOTAL_MEMORY`. -/
def ProcessGroup.memory_fraction (g : ProcessGroup) (cfg : Config) : ℚ :=
  g.memory / cfg.total_memory

/-- Python `ProcessGroup.recently_warned(timeout)`: false when never warned, else
whether the time since the last warning is at most
`max(timeout * _HOUR, _WARNING_COOLDOWN)`. -/
def ProcessGroup.recently_warned (g : ProcessGroup) (cfg : Config)
    (timeout now : ℚ) : Bool :=
  match g.last_warning with
  | none => false
  | some w => decide (now - w ≤ max (timeout * 3600) cfg.warning_cooldown)

/-- Python `ProcessGroup.update(cputime, memory)`: overwrite `memory`, clamp the
CPU-time delta at 0, refresh `last_cpu_time` exactly when the delta
exceeds `_ACTIVE_USAGE * _UPDATE`, and overwrite `cputime`. -/
def ProcessGroup.update (g : ProcessGroup) (cfg : Config)
    (cputime memory now : ℚ) : ProcessGroup :=
  let delta := max (cputime - g.cputime) 0
  { g with
    memory := memory
    cputime_since_update := delta
    last_cpu_time :=
      if delta > cfg.active_usage * cfg.update then now else g.last_cpu_time
    cputime := cputime }

/-- Python `ProcessGroup.warn()` without the mail side effect: increment
`total_warnings` and stamp `last_warning`. -/
def ProcessGroup.warn (g : ProcessGroup) (now : ℚ) : ProcessGroup :=
  { g with
    total_warnings := g.total_warnings + 1
    last_warning := some now }

/-- The inner part of `ProcessGroup.check` once a tier timeout has been
selected: warn, mute, or report OK. -/
def ProcessGroup.judge_idle (g : ProcessGroup) (cfg : Config)
    (timeout now : ℚ) : Verdict × ProcessGroup :=
  if g.idle_hours now > timeout then
    if ¬ (g.recently_warned cfg timeout now = true) then
      (Verdict.WarnedNow, g.warn now)
    else
      (Verdict.WarnedMuted, g)
  else
    (Verdict.Ok, g)

/-- Models `np.min` over a list; `none` models the `ValueError` NumPy raises on a
zero-size array. -/
def listMin : List ℚ → Option ℚ
  | [] => none
  | x :: xs => some (xs.foldl min x)

/-- Models `np.max` over a list; `none` models the `ValueError` NumPy raises on a
zero-size array. -/
def listMax : List ℚ → Option ℚ
  | [] => none
  | x :: xs => some (xs.foldl max x)

/-- Models `list(_IDLE_TIMEOUT_HOURS.keys())`. -/
def tierCutoffs (tiers : List (ℚ × ℚ)) : List ℚ :=
  tiers.map Prod.fst

/-- Models `_IDLE_TIMEOUT_HOURS[cutoff]`; `none` models a `KeyError`. -/
def lookupTier (tiers : List (ℚ × ℚ)) (c : ℚ) : Option ℚ :=
  (tiers.find? (fun p => decide (p.1 = c))).map Prod.snd

/-- Python `ProcessGroup.check()`: if the memory fraction exceeds the smallest
cutoff, select `np.max(cutoffs[cutoffs < memory_fraction])`, read its
timeout and judge idleness; otherwise do nothing (return 0 / `Ok`).
`none` models an uncaught exception inside the NumPy reductions. -/
def ProcessGroup.check (g : ProcessGroup) (cfg : Config) (now : ℚ) :
    Option (Verdict × ProcessGroup) := do
  let cuts := tierCutoffs cfg.idle_timeout_hours
  let m ← listMin cuts
  if g.memory_fraction cfg > m then
    let cutoff ← listMax (cuts.filter (fun c => decide (c < g.memory_fraction cfg)))
    let timeout ← lookupTier cfg.idle_timeout_hours cutoff
    pure (g.judge_idle cfg timeout now)
  else
    pure (Verdict.Ok, g)

/-- Spec-side notion used by the tier claims: `c` is the largest configured
cutoff strictly less than the fraction `f`. -/
def isLargestCutoffBelow (tiers : List (ℚ × ℚ)) (f c : ℚ) : Prop :=
  c ∈ tierCutoffs tiers ∧ c < f ∧ ∀ c2 ∈ tierCutoffs tiers, c2 < f → c2 ≤ c

/-- One per-group record of a `fetch_processes` data frame row (after the
sampler's grouping/filtering, which is out of core scope). -/
structure GroupSample where
  pgid : ℕ
  user : String
  cputime : ℚ
  memory : ℚ
deriving DecidableEq

/-- System-wide memory figures produced by `fetch_total_memory`. -/
structure SystemMem where
  total : ℚ
  available : ℚ
deriving DecidableEq

/-- One oracle round: what the external `ps`/`free` sampler returns for one
`fetch_processes` + `fetch_total_memory` pair, plus the wall-clock time of
that round. -/
structure Round where
  groups : List GroupSample
  mem : SystemMem
  now : ℚ

/-- Models `self.processes`: a Python dict (insertion ordered) from pgid to
`ProcessGroup`, modelled as an association list. -/
abbrev ProcMap := List (ℕ × ProcessGroup)

/-- Models `self.processes[pgid]` lookup; `none` models a `KeyError`. -/
def lookupProc (procs : ProcMap) (i : ℕ) : Option ProcessGroup :=
  (procs.find? (fun e => decide (e.1 = i))).map Prod.snd

/-- In-place mutation of the dict entry for `i` (the Python object update
keeps the entry at its position). -/
def replaceProc (procs : ProcMap) (i : ℕ) (p : ProcessGroup) : ProcMap :=
  procs.map (fun e => if e.1 = i then (i, p) else e)

/-- The pgid column of a snapshot (`df.index`). -/
def snapPgids (snap : List GroupSample) : List ℕ :=
  snap.map GroupSample.pgid

/-- The body of one `update_processes` loop iteration: update an existing
group or create a fresh one, then run `check` on it.  `none` propagates an
exception raised inside `check`. -/
def reconcileStep (cfg : Config) (now : ℚ) (procs : ProcMap)
    (s : GroupSample) : Option ProcMap :=
  match lookupProc procs s.pgid with
  | some p =>
    (ProcessGroup.check (p.update cfg s.cputime s.memory now) cfg now).map
      (fun r => replaceProc procs s.pgid r.2)
  | none =>
    (ProcessGroup.check (ProcessGroup.init s.pgid s.user s.cputime s.memory now)
        cfg now).map
      (fun r => procs ++ [(s.pgid, r.2)])

/-- The `for pgid in df.index` loop of `update_processes`. -/
def reconcileAll (cfg : Config) (now : ℚ) :
    ProcMap → List GroupSample → Option ProcMap
  | procs, [] => some procs
  | procs, s :: rest =>
    (reconcileStep cfg now procs s).bind
      (fun procs2 => reconcileAll cfg now procs2 rest)

/-- Python `MemoryMonitor.update_processes`: the `fetch_processes` emptiness check
(`raise RuntimeError("ps output is empty.")`), the per-sample loop, then
deletion of every pgid absent from the new snapshot. -/
def MemoryMonitor.update_processes (cfg : Config) (procs : ProcMap)
    (snap : List GroupSample) (now : ℚ) : Except String ProcMap :=
  if snap.isEmpty then Except.error "ps output is empty."
  else
    match reconcileAll cfg now procs snap with
    | none => Except.error "ValueError"
    | some procs2 =>
      Except.ok (procs2.filter (fun e => decide (e.1 ∈ snapPgids snap)))

/-- Python `MemoryMonitor.highest_usage_process`: fold over the dict keeping the
strictly largest `memory`, starting from 0 with the result variable
unassigned.  `none` models the `UnboundLocalError` raised when no group
ever beats 0. -/
def MemoryMonitor.highest_usage_process (procs : ProcMap) :
    Option ProcessGroup :=
  (procs.foldl
    (fun acc e => if e.2.memory > acc.1 then (e.2.memory, some e.2) else acc)
    ((0 : ℚ), (none : Option ProcessGroup))).2

/-- The system-level decision of `MemoryMonitor.check`, in source order:
terminate branch first, then the critical warning, else OK. -/
inductive SysAction
  | Ok
  | Warn
  | WarnAndTerminate
deriving DecidableEq

/-- The branch `MemoryMonitor.check` takes for given system memory figures
(lines 462-480 of `mem_monitor.py`, first match wins). -/
def system_action (cfg : Config) (mem : SystemMem) : SysAction :=
  if cfg.terminate_active = true ∧
      mem.available < cfg.terminate_fraction * mem.total then
    SysAction.WarnAndTerminate
  else if mem.available < cfg.critical_fraction * mem.total then
    SysAction.Warn
  else
    SysAction.Ok

/-- Outcome of the (recursive) `MemoryMonitor.check` cascade:
`ret code warns next procs` is a normal return (`code` is the Python
return value, `warns` the number of system-level warning mails sent,
`next` the first unconsumed oracle round, `procs` the final tracker
state); `err` an exception propagating out; `spin` means the recursion is
still running after the given amount of fuel. -/
inductive CascadeOutcome
  | ret : ℕ → ℕ → ℕ → ProcMap → CascadeOutcome
  | err : String → CascadeOutcome
  | spin : CascadeOutcome
deriving DecidableEq

/-- Python `MemoryMonitor.check`: fetch system memory; on the terminate branch
pick the heaviest group, kill it (fire and forget: the effect is visible
only through later oracle rounds), warn, re-run `update_processes` and
recurse; on the critical branch warn and return 1; else return 0.  The
Python recursion is unbounded; `fuel` only limits how far we unroll it,
with `spin` reporting that the recursion had not finished. -/
def MemoryMonitor.check_cascade (cfg : Config) (sampler : ℕ → Round) :
    ℕ → ℕ → ProcMap → CascadeOutcome
  | 0, _, _ => CascadeOutcome.spin
  | fuel + 1, k, procs =>
    match system_action cfg (sampler k).mem with
    | SysAction.WarnAndTerminate =>
      match MemoryMonitor.highest_usage_process procs with
      | none => CascadeOutcome.err "UnboundLocalError"
      | some _target =>
        match MemoryMonitor.update_processes cfg procs
            (sampler (k + 1)).groups (sampler (k + 1)).now with
        | Except.error e => CascadeOutcome.err e
        | Except.ok procs2 =>
          match MemoryMonitor.check_cascade cfg sampler fuel (k + 1) procs2 with
          | CascadeOutcome.ret c w k2 p2 => CascadeOutcome.ret c (w + 1) k2 p2
          | o => o
    | SysAction.Warn => CascadeOutcome.ret 1 1 (k + 1) procs
    | SysAction.Ok => CascadeOutcome.ret 0 0 (k + 1) procs

/-- The claim "the cascade never finishes on this input": every amount of
fuel is exhausted, from any starting round. -/
def cascadeRunsForever (cfg : Config) (sampler : ℕ → Round)
    (procs : ProcMap) : Prop :=
  ∀ fuel k, MemoryMonitor.check_cascade cfg sampler fuel k procs =
    CascadeOutcome.spin

/-- Outcome of one `MemoryMonitor.update` tick. -/
inductive TickOutcome
  | ok : ProcMap → ℕ → TickOutcome
  | err : String → TickOutcome
  | spin : TickOutcome
deriving DecidableEq

/-- Python `MemoryMonitor.update`: `update_processes` then `check` (whose return
value is discarded).  An exception in either propagates to the caller. -/
def MemoryMonitor.tick (cfg : Config) (sampler : ℕ → Round) (fuel k : ℕ)
    (procs : ProcMap) : TickOutcome :=
  match MemoryMonitor.update_processes cfg procs (sampler k).groups
      (sampler k).now with
  | Except.error e => TickOutcome.err e
  | Except.ok procs2 =>
    match MemoryMonitor.check_cascade cfg sampler fuel k procs2 with
    | CascadeOutcome.ret _ _ k2 procs3 => TickOutcome.ok procs3 k2
    | CascadeOutcome.err e => TickOutcome.err e
    | CascadeOutcome.spin => TickOutcome.spin

/-- Outcome of the `while True` polling loop after a number of ticks. -/
inductive LoopOutcome
  | running : ProcMap → ℕ → LoopOutcome
  | err : String → LoopOutcome
  | spin : LoopOutcome
deriving DecidableEq

/-- The `__main__` polling loop: `while True: m.update(); time.sleep(...)`.
There is no exception handler, so a raised error exits the loop (and the
process).  `running` reports the state after `n` completed ticks. -/
def MemoryMonitor.main_loop (cfg : Config) (sampler : ℕ → Round) (fuel : ℕ) :
    ℕ → ℕ → ProcMap → LoopOutcome
  | 0, k, procs => LoopOutcome.running procs k
  | n + 1, k, procs =>
    match MemoryMonitor.tick cfg sampler fuel k procs with
    | TickOutcome.ok procs2 k2 =>
      MemoryMonitor.main_loop cfg sampler fuel n k2 procs2
    | TickOutcome.err e => LoopOutcome.err e
    | TickOutcome.spin => LoopOutcome.spin

/-! ### Concrete instances used by witnesses and counterexamples -/

/-- A configuration with the default tier shape (50% immediately, 20%
after 6h, 10% after 24h), termination disabled. -/
def cfgA : Config :=
  { idle_timeout_hours := [(1/2, 0), (1/5, 6), (1/10, 24)]
    active_usage := 1
    update := 30
    warning_cooldown := 600
    min_idle_time := 300
    critical_fraction := 1/10
    terminate_active := false
    terminate_fraction := 1/20
    total_memory := 100 }

/-- A configuration with termination enabled (terminate below 10%
available) and a single 50% tier. -/
def cfg2 : Config :=
  { idle_timeout_hours := [(1/2, 0)]
    active_usage := 1
    update := 30
    warning_cooldown := 600
    min_idle_time := 300
    critical_fraction := 1/10
    terminate_active := true
    terminate_fraction := 1/10
    total_memory := 100 }

/-- An adversarial sampler: memory stays at 4GB of 100GB (below the 10%
terminate threshold) and the same process group keeps being listed —
the fire-and-forget kill never takes effect. -/
def sampler2 : ℕ → Round :=
  fun _ => { groups := [⟨1, "u", 0, 50⟩], mem := ⟨100, 4⟩, now := 0 }

/-- The single tracked group matching `sampler2`. -/
def procs2 : ProcMap :=
  [(1, ProcessGroup.init 1 "u" 0 50 0)]

/-- A sampler whose process listing is empty on every round. -/
def sampler3 : ℕ → Round :=
  fun _ => { groups := [], mem := ⟨100, 50⟩, now := 0 }

/-- A sampler that lists one group on round 0 and nothing afterwards (the
kill takes effect immediately). -/
def samplerW2 : ℕ → Round :=
  fun k =>
    { groups := if k = 0 then [⟨1, "u", 0, 50⟩] else []
      mem := ⟨100, 4⟩
      now := 0 }

/-- A group sitting exactly at the 20% cutoff of `cfgA`, idle since time 0
and never warned. -/
def g6 : ProcessGroup :=
  { pgid := 3
    user := "v"
    memory := 20
    cputime := 0
    cputime_since_update := 0
    start_time := 0
    last_cpu_time := 0
    last_warning := none
    total_warnings := 0 }

/-- A group at 25% of memory (between the 20% and 50% cutoffs of `cfgA`). -/
def g1 : ProcessGroup :=
  { pgid := 4
    user := "x"
    memory := 25
    cputime := 0
    cputime_since_update := 0
    start_time := 0
    last_cpu_time := 0
    last_warning := none
    total_warnings := 0 }

/-- A heavy idle group (60% of memory, idle since time 0, never warned). -/
def g7 : ProcessGroup :=
  { pgid := 9
    user := "w"
    memory := 60
    cputime := 0
    cputime_since_update := 0
    start_time := 0
    last_cpu_time := 0
    last_warning := none
    total_warnings := 0 }

/-- State of `g7` right after being warned at time 36000. -/
def g71 : ProcessGroup :=
  { g7 with total_warnings := 1, last_warning := some 36000 }

/-- A group used for the `update` witness: stored `cputime` is 5. -/
def g8 : ProcessGroup :=
  { pgid := 11
    user := "y"
    memory := 2
    cputime := 5
    cputime_since_update := 0
    start_time := 0
    last_cpu_time := 0
    last_warning := none
    total_warnings := 0 }

/-- A surviving heavy idle group for the reconcile counterexample. -/
def gOld9 : ProcessGroup :=
  { pgid := 7
    user := "u"
    memory := 60
    cputime := 100
    cputime_since_update := 0
    start_time := 0
    last_cpu_time := 0
    last_warning := none
    total_warnings := 0 }

/-- What `update_processes` actually leaves for `gOld9`: the tick's
`check` warned it, mutating the warning history. -/
def gNew9 : ProcessGroup :=
  { gOld9 with total_warnings := 1, last_warning := some 36000 }

/-- The snapshot in which `gOld9`'s pgid survives with identical CPU time
(no activity) and the same memory. -/
def snap9 : List GroupSample :=
  [⟨7, "u", 100, 60⟩]

/-- A small fresh group for the reconcile witness. -/
def gW9 : ProcessGroup :=
  ProcessGroup.init 1 "u" 0 10 0

/-- Snapshot for the reconcile witness: pgid 1 survives, pgid 2 is new. -/
def snapW9 : List GroupSample :=
  [⟨1, "u", 0, 10⟩, ⟨2, "v", 0, 20⟩]

/-- System memory figures at 5% available of 100GB. -/
def mem4 : SystemMem :=
  ⟨100, 5⟩

end MemMonitor

namespace MemMonitor

/-! ### Helper lemmas: NumPy-style reductions over lists -/

theorem foldl_min_le_init (xs : List ℚ) (x : ℚ) : xs.foldl min x ≤ x := by
  induction xs generalizing x with
  | nil => exact le_refl x
  | cons a xs ih =>
    exact le_trans (ih (min x a)) (min_le_left x a)

theorem foldl_min_le_mem (xs : List ℚ) (x y : ℚ) (hy : y ∈ xs) :
    xs.foldl min x ≤ y := by
  induction xs generalizing x with
  | nil => cases hy
  | cons a xs ih =>
    rcases List.mem_cons.mp hy with h | h
    · subst h
      exact le_trans (foldl_min_le_init xs (min x y)) (min_le_right x y)
    · exact ih (min x a) h

theorem foldl_min_mem (xs : List ℚ) (x : ℚ) : xs.foldl min x ∈ x :: xs := by
  induction xs generalizing x with
  | nil => exact List.mem_singleton.mpr rfl
  | cons a xs ih =>
    have h := ih (min x a)
    rcases List.mem_cons.mp h with h1 | h1
    · rcases min_choice x a with hc | hc
      · exact List.mem_cons.mpr (Or.inl (h1.trans hc))
      · refine List.mem_cons.mpr (Or.inr ?_)
        exact List.mem_cons.mpr (Or.inl (h1.trans hc))
    · exact List.mem_cons.mpr (Or.inr (List.mem_cons.mpr (Or.inr h1)))

theorem listMin_le (l : List ℚ) (m : ℚ) (h : listMin l = some m) :
    ∀ y ∈ l, m ≤ y := by
  cases l with
  | nil => cases h
  | cons x xs =>
    intro y hy
    have hm : m = xs.foldl min x := by
      simpa [listMin] using h.symm
    subst hm
    rcases List.mem_cons.mp hy with h1 | h1
    · subst h1; exact foldl_min_le_init xs y
    · exact foldl_min_le_mem xs x y h1

theorem listMin_mem (l : List ℚ) (m : ℚ) (h : listMin l = some m) :
    m ∈ l := by
  cases l with
  | nil => cases h
  | cons x xs =>
    have hm : m = xs.foldl min x := by
      simpa [listMin] using h.symm
    subst hm
    exact foldl_min_mem xs x

theorem listMin_isSome (l : List ℚ) (h : l ≠ []) :
    ∃ m, listMin l = some m := by
  cases l with
  | nil => exact absurd rfl h
  | cons x xs => exact ⟨xs.foldl min x, rfl⟩

theorem foldl_max_ge_init (xs : List ℚ) (x : ℚ) : x ≤ xs.foldl max x := by
  induction xs generalizing x with
  | nil => exact le_refl x
  | cons a xs ih =>
    exact le_trans (le_max_left x a) (ih (max x a))

theorem foldl_max_ge_mem (xs : List ℚ) (x y : ℚ) (hy : y ∈ xs) :
    y ≤ xs.foldl max x := by
  induction xs generalizing x with
  | nil => cases hy
  | cons a xs ih =>
    rcases List.mem_cons.mp hy with h | h
    · subst h
      exact le_trans (le_max_right x y) (foldl_max_ge_init xs (max x y))
    · exact ih (max x a) h

theorem foldl_max_mem (xs : List ℚ) (x : ℚ) : xs.foldl max x ∈ x :: xs := by
  induction xs generalizing x with
  | nil => exact List.mem_singleton.mpr rfl
  | cons a xs ih =>
    have h := ih (max x a)
    rcases List.mem_cons.mp h with h1 | h1
    · rcases max_choice x a with hc | hc
      · exact List.mem_cons.mpr (Or.inl (h1.trans hc))
      · refine List.mem_cons.mpr (Or.inr ?_)
        exact List.mem_cons.mpr (Or.inl (h1.trans hc))
    · exact List.mem_cons.mpr (Or.inr (List.mem_cons.mpr (Or.inr h1)))

theorem listMax_ge (l : List ℚ) (m : ℚ) (h : listMax l = some m) :
    ∀ y ∈ l, y ≤ m := by
  cases l with
  | nil => cases h
  | cons x xs =>
    intro y hy
    have hm : m = xs.foldl max x := by
      simpa [listMax] using h.symm
    subst hm
    rcases List.mem_cons.mp hy with h1 | h1
    · subst h1; exact foldl_max_ge_init xs y
    · exact foldl_max_ge_mem xs x y h1

theorem listMax_mem (l : List ℚ) (m : ℚ) (h : listMax l = some m) :
    m ∈ l := by
  cases l with
  | nil => cases h
  | cons x xs =>
    have hm : m = xs.foldl max x := by
      simpa [listMax] using h.symm
    subst hm
    exact foldl_max_mem xs x

theorem listMax_isSome (l : List ℚ) (h : l ≠ []) :
    ∃ m, listMax l = some m := by
  cases l with
  | nil => exact absurd rfl h
  | cons x xs => exact ⟨xs.foldl max x, rfl⟩

/-! ### Helper lemmas: tier lookup -/

theorem lookupTier_isSome (tiers : List (ℚ × ℚ)) (c : ℚ)
    (h : c ∈ tierCutoffs tiers) : ∃ t, lookupTier tiers c = some t := by
  induction tiers with
  | nil => cases h
  | cons p rest ih =>
    by_cases hp : p.1 = c
    · exact ⟨p.2, by simp [lookupTier, List.find?, hp]⟩
    · have hc : c ∈ tierCutoffs rest := by
        rcases List.mem_cons.mp h with h1 | h1
        · exact absurd h1.symm hp
        · exact h1
      rcases ih hc with ⟨t, ht⟩
      refine ⟨t, ?_⟩
      simpa [lookupTier, List.find?, hp] using ht

theorem lookupTier_mem (tiers : List (ℚ × ℚ)) (c t : ℚ)
    (h : lookupTier tiers c = some t) : (c, t) ∈ tiers := by
  induction tiers with
  | nil => cases h
  | cons p rest ih =>
    by_cases hp : p.1 = c
    · have ht : p.2 = t := by
        simpa [lookupTier, List.find?, hp] using h
      have : p = (c, t) := by
        cases p
        simp only [Prod.mk.injEq]
        exact ⟨hp, ht⟩
      exact this ▸ List.mem_cons_self p rest
    · have h2 : lookupTier rest c = some t := by
        simpa [lookupTier, List.find?, hp] using h
      exact List.mem_cons.mpr (Or.inr (ih h2))

/-! ### Helper lemmas: structure of `ProcessGroup.check` -/

theorem check_eq (cfg : Config) (g : ProcessGroup) (now : ℚ) :
    g.check cfg now =
      (listMin (tierCutoffs cfg.idle_timeout_hours)).bind (fun m =>
        if g.memory_fraction cfg > m then
          (listMax ((tierCutoffs cfg.idle_timeout_hours).filter
              (fun c => decide (c < g.memory_fraction cfg)))).bind (fun cutoff =>
            (lookupTier cfg.idle_timeout_hours cutoff).bind (fun timeout =>
              some (g.judge_idle cfg timeout now)))
        else some (Verdict.Ok, g)) :=
  rfl

theorem check_below (cfg : Config) (g : ProcessGroup) (now m : ℚ)
    (hmin : listMin (tierCutoffs cfg.idle_timeout_hours) = some m)
    (h : ¬ g.memory_fraction cfg > m) :
    g.check cfg now = some (Verdict.Ok, g) := by
  rw [check_eq, hmin]
  simp [h]

theorem check_above (cfg : Config) (g : ProcessGroup) (now m : ℚ)
    (hmin : listMin (tierCutoffs cfg.idle_timeout_hours) = some m)
    (h : g.memory_fraction cfg > m) :
    ∃ c t,
      listMax ((tierCutoffs cfg.idle_timeout_hours).filter
          (fun c => decide (c < g.memory_fraction cfg))) = some c
      ∧ isLargestCutoffBelow cfg.idle_timeout_hours (g.memory_fraction cfg) c
      ∧ lookupTier cfg.idle_timeout_hours c = some t
      ∧ g.check cfg now = some (g.judge_idle cfg t now) := by
  have hmmem := listMin_mem _ _ hmin
  have hflt : m ∈ (tierCutoffs cfg.idle_timeout_hours).filter
      (fun c => decide (c < g.memory_fraction cfg)) :=
    List.mem_filter.mpr ⟨hmmem, by simpa using h⟩
  obtain ⟨c, hc⟩ := listMax_isSome _ (List.ne_nil_of_mem hflt)
  have hcf := List.mem_filter.mp (listMax_mem _ _ hc)
  obtain ⟨t, ht⟩ := lookupTier_isSome _ _ hcf.1
  refine ⟨c, t, hc, ⟨hcf.1, by simpa using hcf.2, ?_⟩, ht, ?_⟩
  · intro c2 hc2 hlt
    exact listMax_ge _ _ hc c2 (List.mem_filter.mpr ⟨hc2, by simpa using hlt⟩)
  · rw [check_eq, hmin, Option.some_bind, if_pos h, hc, Option.some_bind, ht,
      Option.some_bind]

theorem check_result_is_judge (cfg : Config) (g : ProcessGroup) (now : ℚ)
    (v : Verdict) (g2 : ProcessGroup)
    (h : g.check cfg now = some (v, g2)) :
    (v = Verdict.Ok ∧ g2 = g) ∨ ∃ t, (v, g2) = g.judge_idle cfg t now := by
  rcases hml : listMin (tierCutoffs cfg.idle_timeout_hours) with _ | m
  · rw [check_eq, hml] at h
    simp at h
  · by_cases hgt : g.memory_fraction cfg > m
    · obtain ⟨c, t, _, _, _, hck⟩ := check_above cfg g now m hml hgt
      rw [hck] at h
      exact Or.inr ⟨t, (Option.some.inj h).symm⟩
    · have h2 := (check_below cfg g now m hml hgt).symm.trans h
      have h3 := Option.some.inj h2
      injection h3 with hv hg
      exact Or.inl ⟨hv.symm, hg.symm⟩

theorem judge_idle_cases (cfg : Config) (g : ProcessGroup) (timeout now : ℚ) :
    g.judge_idle cfg timeout now = (Verdict.Ok, g)
    ∨ g.judge_idle cfg timeout now = (Verdict.WarnedMuted, g)
    ∨ g.judge_idle cfg timeout now = (Verdict.WarnedNow, g.warn now) := by
  by_cases h1 : g.idle_hours now > timeout
  · by_cases h2 : g.recently_warned cfg timeout now = true
    · refine Or.inr (Or.inl ?_)
      unfold ProcessGroup.judge_idle
      rw [if_pos h1, if_neg (not_not_intro h2)]
    · refine Or.inr (Or.inr ?_)
      unfold ProcessGroup.judge_idle
      rw [if_pos h1, if_pos h2]
  · refine Or.inl ?_
    unfold ProcessGroup.judge_idle
    rw [if_neg h1]

theorem check_warnedNow_state (cfg : Config) (g : ProcessGroup) (now : ℚ)
    (g2 : ProcessGroup)
    (h : g.check cfg now = some (Verdict.WarnedNow, g2)) :
    g2 = g.warn now := by
  rcases check_result_is_judge cfg g now Verdict.WarnedNow g2 h with ⟨hv, _⟩ | ⟨t, hj⟩
  · cases hv
  · rcases judge_idle_cases cfg g t now with hc | hc | hc
    · rw [hc] at hj
      simp at hj
    · rw [hc] at hj
      simp at hj
    · rw [hc] at hj
      simp only [Prod.mk.injEq, eq_self_iff_true, true_and] at hj
      exact hj

theorem recently_warned_iff (cfg : Config) (g : ProcessGroup)
    (timeout now : ℚ) :
    g.recently_warned cfg timeout now = true ↔
      ∃ w, g.last_warning = some w ∧
        now - w ≤ max (timeout * 3600) cfg.warning_cooldown := by
  unfold ProcessGroup.recently_warned
  cases hl : g.last_warning with
  | none => simp
  | some w => simp

theorem check_isSome (cfg : Config) (g : ProcessGroup) (now : ℚ)
    (hne : cfg.idle_timeout_hours ≠ []) :
    ∃ r, g.check cfg now = some r := by
  have hcne : tierCutoffs cfg.idle_timeout_hours ≠ [] :=
    fun hc => hne (List.map_eq_nil_iff.mp hc)
  obtain ⟨m, hm⟩ := listMin_isSome _ hcne
  by_cases hgt : g.memory_fraction cfg > m
  · obtain ⟨c, t, _, _, _, hck⟩ := check_above cfg g now m hm hgt
    exact ⟨_, hck⟩
  · exact ⟨_, check_below cfg g now m hm hgt⟩

theorem check_fresh (cfg : Config) (pgid : ℕ) (user : String)
    (ct m now : ℚ) (hne : cfg.idle_timeout_hours ≠ [])
    (ht0 : ∀ p ∈ cfg.idle_timeout_hours, 0 ≤ p.2) :
    (ProcessGroup.init pgid user ct m now).check cfg now =
      some (Verdict.Ok, ProcessGroup.init pgid user ct m now) := by
  have hcne : tierCutoffs cfg.idle_timeout_hours ≠ [] :=
    fun hc => hne (List.map_eq_nil_iff.mp hc)
  obtain ⟨mn, hmn⟩ := listMin_isSome _ hcne
  by_cases hgt :
      (ProcessGroup.init pgid user ct m now).memory_fraction cfg > mn
  · obtain ⟨c, t, _, _, ht, hck⟩ :=
      check_above cfg (ProcessGroup.init pgid user ct m now) now mn hmn hgt
    rw [hck]
    have htge : 0 ≤ t := ht0 (c, t) (lookupTier_mem _ _ _ ht)
    have hidle : (ProcessGroup.init pgid user ct m now).idle_hours now = 0 := by
      simp [ProcessGroup.idle_hours, ProcessGroup.idle_seconds,
        ProcessGroup.init]
    unfold ProcessGroup.judge_idle
    rw [if_neg]
    rw [hidle]
    exact not_lt.mpr htge
  · exact check_below cfg _ now mn hmn hgt

theorem judge_not_warnedNow_of_recent (cfg : Config) (g : ProcessGroup)
    (t now : ℚ) (hrw : g.recently_warned cfg t now = true) :
    ∀ g2, g.judge_idle cfg t now ≠ (Verdict.WarnedNow, g2) := by
  intro g2 h
  unfold ProcessGroup.judge_idle at h
  by_cases h1 : g.idle_hours now > t
  · rw [if_pos h1, if_neg (not_not_intro hrw)] at h
    simp at h
  · rw [if_neg h1] at h
    simp at h

/-! ### Concrete evaluation lemmas (rational arithmetic via `norm_num`) -/

theorem check_eval (cfg : Config) (g : ProcessGroup) (now m c t : ℚ)
    (hmin : listMin (tierCutoffs cfg.idle_timeout_hours) = some m)
    (hgt : g.memory_fraction cfg > m)
    (hmax : listMax ((tierCutoffs cfg.idle_timeout_hours).filter
        (fun x => decide (x < g.memory_fraction cfg))) = some c)
    (hlook : lookupTier cfg.idle_timeout_hours c = some t) :
    g.check cfg now = some (g.judge_idle cfg t now) := by
  rw [check_eq, hmin, Option.some_bind, if_pos hgt, hmax, Option.some_bind,
    hlook, Option.some_bind]

theorem cfgA_tiers_ne : cfgA.idle_timeout_hours ≠ [] := by
  simp [cfgA]

theorem cfgA_cutoffs : tierCutoffs cfgA.idle_timeout_hours = [1/2, 1/5, 1/10] := by
  simp [tierCutoffs, cfgA]

theorem cfgA_min : listMin (tierCutoffs cfgA.idle_timeout_hours) = some (1/10) := by
  rw [cfgA_cutoffs]
  norm_num [listMin, min_def]

theorem cfgA_lookup_half : lookupTier cfgA.idle_timeout_hours (1/2) = some 0 := by
  norm_num [lookupTier, cfgA, List.find?]

theorem cfgA_lookup_tenth : lookupTier cfgA.idle_timeout_hours (1/10) = some 24 := by
  norm_num [lookupTier, cfgA, List.find?]

theorem g1_fraction : g1.memory_fraction cfgA = 1/4 := by
  norm_num [ProcessGroup.memory_fraction, g1, cfgA]

theorem g6_fraction : g6.memory_fraction cfgA = 1/5 := by
  norm_num [ProcessGroup.memory_fraction, g6, cfgA]

theorem g7_fraction : g7.memory_fraction cfgA = 3/5 := by
  norm_num [ProcessGroup.memory_fraction, g7, cfgA]

theorem g71_fraction : g71.memory_fraction cfgA = 3/5 := by
  norm_num [ProcessGroup.memory_fraction, g71, g7, cfgA]

theorem g8_fraction : g8.memory_fraction cfgA = 1/50 := by
  norm_num [ProcessGroup.memory_fraction, g8, cfgA]

theorem g6_filter :
    (tierCutoffs cfgA.idle_timeout_hours).filter
      (fun x => decide (x < g6.memory_fraction cfgA)) = [1/10] := by
  rw [cfgA_cutoffs]
  simp only [g6_fraction]
  norm_num [List.filter]

theorem g7_filter :
    (tierCutoffs cfgA.idle_timeout_hours).filter
      (fun x => decide (x < g7.memory_fraction cfgA)) = [1/2, 1/5, 1/10] := by
  rw [cfgA_cutoffs]
  simp only [g7_fraction]
  norm_num [List.filter]

theorem g71_filter :
    (tierCutoffs cfgA.idle_timeout_hours).filter
      (fun x => decide (x < g71.memory_fraction cfgA)) = [1/2, 1/5, 1/10] := by
  rw [cfgA_cutoffs]
  simp only [g71_fraction]
  norm_num [List.filter]

theorem g6_check : g6.check cfgA 36000 = some (Verdict.Ok, g6) := by
  have h := check_eval cfgA g6 36000 (1/10) (1/10) 24 cfgA_min
    (by rw [g6_fraction]; norm_num)
    (by rw [g6_filter]; simp [listMax]) cfgA_lookup_tenth
  rw [h]
  unfold ProcessGroup.judge_idle
  rw [if_neg (show ¬ g6.idle_hours 36000 > 24 by
    norm_num [ProcessGroup.idle_hours, ProcessGroup.idle_seconds, g6])]

theorem g7_check : g7.check cfgA 36000 = some (Verdict.WarnedNow, g71) := by
  have h := check_eval cfgA g7 36000 (1/10) (1/2) 0 cfgA_min
    (by rw [g7_fraction]; norm_num)
    (by rw [g7_filter]; norm_num [listMax, max_def]) cfgA_lookup_half
  rw [h]
  unfold ProcessGroup.judge_idle
  rw [if_pos (show g7.idle_hours 36000 > 0 by
    norm_num [ProcessGroup.idle_hours, ProcessGroup.idle_seconds, g7])]
  rw [if_pos (show ¬ g7.recently_warned cfgA 0 36000 = true by
    simp [ProcessGroup.recently_warned, g7])]
  simp [ProcessGroup.warn, g71, g7]

theorem g71_check : g71.check cfgA 36300 = some (Verdict.WarnedMuted, g71) := by
  have h := check_eval cfgA g71 36300 (1/10) (1/2) 0 cfgA_min
    (by rw [g71_fraction]; norm_num)
    (by rw [g71_filter]; norm_num [listMax, max_def]) cfgA_lookup_half
  rw [h]
  unfold ProcessGroup.judge_idle
  have hrw : g71.recently_warned cfgA 0 36300 = true := by
    norm_num [ProcessGroup.recently_warned, g71, g7, cfgA, max_def]
  rw [if_pos (show g71.idle_hours 36300 > 0 by
    norm_num [ProcessGroup.idle_hours, ProcessGroup.idle_seconds, g71, g7])]
  rw [if_neg (not_not_intro hrw)]

theorem g8_check : g8.check cfgA 0 = some (Verdict.Ok, g8) := by
  apply check_below cfgA g8 0 (1/10) cfgA_min
  rw [g8_fraction]
  norm_num

/-! ### Claim theorems -/

/-- Claim C1: for every group whose memory fraction exceeds the smallest
configured cutoff, `ProcessGroup.check` judges the group against the
idle-hours threshold paired with the largest cutoff strictly less than
the fraction, and a group below every cutoff returns `Ok` unchanged. -/
theorem tier_selection_correct (cfg : Config) (g : ProcessGroup) (now : ℚ)
    (hne : cfg.idle_timeout_hours ≠ []) :
    ((∀ p ∈ cfg.idle_timeout_hours, g.memory_fraction cfg < p.1) →
        g.check cfg now = some (Verdict.Ok, g))
    ∧ (∀ m, listMin (tierCutoffs cfg.idle_timeout_hours) = some m →
        g.memory_fraction cfg > m →
        ∃ c t,
          isLargestCutoffBelow cfg.idle_timeout_hours (g.memory_fraction cfg) c
          ∧ lookupTier cfg.idle_timeout_hours c = some t
          ∧ g.check cfg now = some (g.judge_idle cfg t now)) := by
  constructor
  · intro hbelow
    have hcne : tierCutoffs cfg.idle_timeout_hours ≠ [] :=
      fun hc => hne (List.map_eq_nil_iff.mp hc)
    obtain ⟨m, hm⟩ := listMin_isSome _ hcne
    obtain ⟨p, hp, hpm⟩ := List.mem_map.mp (listMin_mem _ _ hm)
    have hlt : g.memory_fraction cfg < m := hpm ▸ hbelow p hp
    exact check_below cfg g now m hm (lt_asymm hlt)
  · intro m hm hgt
    obtain ⟨c, t, _, hlcb, ht, hck⟩ := check_above cfg g now m hm hgt
    exact ⟨c, t, hlcb, ht, hck⟩

/-- Witness for C1: under the default-shaped tiers of `cfgA`, a group at
25% of memory is judged against the tier of the 20% cutoff (the 6-hour
threshold), exactly as in the spec's worked example. -/
theorem tier_selection_correct_witness :
    listMin (tierCutoffs cfgA.idle_timeout_hours) = some (1/10)
    ∧ g1.memory_fraction cfgA > 1/10
    ∧ ∃ c t,
        isLargestCutoffBelow cfgA.idle_timeout_hours (g1.memory_fraction cfgA) c
        ∧ lookupTier cfgA.idle_timeout_hours c = some t
        ∧ g1.check cfgA 0 = some (g1.judge_idle cfgA t 0) :=
  ⟨cfgA_min, by rw [g1_fraction]; norm_num,
    (tier_selection_correct cfgA g1 0 cfgA_tiers_ne).2 (1/10) cfgA_min
      (by rw [g1_fraction]; norm_num)⟩

/-- Claim C6 counterexample: with tiers `{0.50:0, 0.20:6, 0.10:24}`, a
group exactly at the 0.20 cutoff that has been idle 10 hours is judged
against the 24-hour threshold of the 0.10 tier (not the 6-hour one) and
gets no warning: the boundary favors a later warning, not an earlier
one. -/
theorem boundary_counterexample :
    g6.memory_fraction cfgA = 1/5
    ∧ ((1/5 : ℚ), (6 : ℚ)) ∈ cfgA.idle_timeout_hours
    ∧ g6.idle_hours 36000 = 10
    ∧ (6 : ℚ) < 10
    ∧ listMax ((tierCutoffs cfgA.idle_timeout_hours).filter
        (fun c => decide (c < g6.memory_fraction cfgA))) = some (1/10)
    ∧ lookupTier cfgA.idle_timeout_hours (1/10) = some 24
    ∧ g6.check cfgA 36000 = some (Verdict.Ok, g6) := by
  refine ⟨g6_fraction, by simp [cfgA], ?_, by norm_num, ?_, cfgA_lookup_tenth,
    g6_check⟩
  · norm_num [ProcessGroup.idle_hours, ProcessGroup.idle_seconds, g6]
  · rw [g6_filter]
    simp [listMax]

/-- Claim C6 amended: cutoffs are compared with strict `<`, so a group
exactly at a cutoff boundary is judged by the largest cutoff strictly
below it; when larger cutoffs carry smaller-or-equal idle thresholds (as
in every configured table) the applied threshold is at least the boundary
tier's own, so the boundary favors a later warning, and a group exactly
at the smallest cutoff returns `Ok`. -/
theorem boundary_uses_next_lower_tier (cfg : Config) (g : ProcessGroup)
    (now c tc : ℚ) (hmem : (c, tc) ∈ cfg.idle_timeout_hours)
    (hfrac : g.memory_fraction cfg = c)
    (hmono : ∀ p ∈ cfg.idle_timeout_hours, ∀ q ∈ cfg.idle_timeout_hours,
      p.1 < q.1 → q.2 ≤ p.2) :
    ∀ m, listMin (tierCutoffs cfg.idle_timeout_hours) = some m →
      (c = m → g.check cfg now = some (Verdict.Ok, g))
      ∧ (m < c →
        ∃ c2 t2, isLargestCutoffBelow cfg.idle_timeout_hours c c2
          ∧ lookupTier cfg.idle_timeout_hours c2 = some t2
          ∧ tc ≤ t2
          ∧ g.check cfg now = some (g.judge_idle cfg t2 now)) := by
  intro m hm
  constructor
  · intro hcm
    apply check_below cfg g now m hm
    rw [hfrac, hcm]
    exact lt_irrefl m
  · intro hmc
    have hgt : g.memory_fraction cfg > m := by
      rw [hfrac]
      exact hmc
    obtain ⟨c2, t2, _, hlcb, ht2, hck⟩ := check_above cfg g now m hm hgt
    rw [hfrac] at hlcb
    refine ⟨c2, t2, hlcb, ht2, ?_, hck⟩
    exact hmono (c2, t2) (lookupTier_mem _ _ _ ht2) (c, tc) hmem hlcb.2.1

/-- Witness for the amended C6: `g6` sits exactly at the 0.20 cutoff of
`cfgA` and is judged by the 0.10 tier, whose 24-hour threshold is larger
than the boundary tier's 6 hours. -/
theorem boundary_uses_next_lower_tier_witness :
    ∃ c2 t2, isLargestCutoffBelow cfgA.idle_timeout_hours (1/5) c2
      ∧ lookupTier cfgA.idle_timeout_hours c2 = some t2
      ∧ (6 : ℚ) ≤ t2
      ∧ g6.check cfgA 36000 = some (g6.judge_idle cfgA t2 36000) :=
  ((boundary_uses_next_lower_tier cfgA g6 36000 (1/5) 6 (by simp [cfgA])
      g6_fraction
      (by
        intro p hp q hq
        simp only [cfgA] at hp hq
        fin_cases hp <;> fin_cases hq <;> norm_num)) (1/10) cfgA_min).2
    (by norm_num)

/-- Claim C10: whenever `ProcessGroup.check` does not take the
`WarnedNow` path, the whole group state is left unchanged; on the
`WarnedNow` path the only mutation is the one performed by `warn`. -/
theorem check_frame (cfg : Config) (g : ProcessGroup) (now : ℚ)
    (v : Verdict) (g2 : ProcessGroup)
    (h : g.check cfg now = some (v, g2)) :
    (v ≠ Verdict.WarnedNow → g2 = g)
    ∧ (v = Verdict.WarnedNow → g2 = g.warn now) := by
  constructor
  · intro hv
    rcases check_result_is_judge cfg g now v g2 h with ⟨_, hg⟩ | ⟨t, hj⟩
    · exact hg
    · rcases judge_idle_cases cfg g t now with hc | hc | hc <;> rw [hc] at hj <;>
        simp only [Prod.mk.injEq] at hj
      · exact hj.2
      · exact hj.2
      · exact absurd hj.1 hv
  · intro hv
    subst hv
    exact check_warnedNow_state cfg g now g2 h

/-- Witness for C10: a group below every tier comes out of `check`
verbatim. -/
theorem check_frame_witness :
    g8.check cfgA 0 = some (Verdict.Ok, g8) ∧ g8 = g8 :=
  ⟨g8_check, (check_frame cfgA g8 0 Verdict.Ok g8 g8_check).1 (by decide)⟩

/-- Claim C7: a qualifying group is muted exactly when the time since its
last warning is within `max(timeout * 3600, warning_cooldown)` (with no
state change); otherwise the warning counter is incremented and the
warning time stamped; consequently two `check`s within the cooldown,
with no intervening update, never both return `WarnedNow`. -/
theorem warn_cooldown_idempotent (cfg : Config) :
    (∀ (g : ProcessGroup) (timeout now : ℚ), g.idle_hours now > timeout →
      ((∃ w, g.last_warning = some w ∧
          now - w ≤ max (timeout * 3600) cfg.warning_cooldown) →
        g.judge_idle cfg timeout now = (Verdict.WarnedMuted, g))
      ∧ (g.recently_warned cfg timeout now = false →
        g.judge_idle cfg timeout now =
          (Verdict.WarnedNow,
            { g with
              total_warnings := g.total_warnings + 1
              last_warning := some now })))
    ∧ (∀ (g g1 : ProcessGroup) (t1 t2 : ℚ),
        g.check cfg t1 = some (Verdict.WarnedNow, g1) →
        t2 - t1 ≤ cfg.warning_cooldown →
        ∀ v g2, g1.check cfg t2 = some (v, g2) → v ≠ Verdict.WarnedNow) := by
  constructor
  · intro g timeout now hidle
    constructor
    · intro hrec
      have hrw : g.recently_warned cfg timeout now = true :=
        (recently_warned_iff cfg g timeout now).mpr hrec
      unfold ProcessGroup.judge_idle
      rw [if_pos hidle, if_neg (not_not_intro hrw)]
    · intro hrec
      have hnrw : ¬ g.recently_warned cfg timeout now = true := by
        rw [hrec]
        exact Bool.false_ne_true
      unfold ProcessGroup.judge_idle
      rw [if_pos hidle, if_pos hnrw]
      rfl
  · intro g g1 t1 t2 hchk hcool v g2 hchk2 hv
    subst hv
    have hg1w : g1.last_warning = some t1 := by
      rw [check_warnedNow_state cfg g t1 g1 hchk]
      rfl
    rcases check_result_is_judge cfg g1 t2 Verdict.WarnedNow g2 hchk2 with
      ⟨hvv, _⟩ | ⟨t, hj⟩
    · exact Verdict.noConfusion hvv
    · have hrw : g1.recently_warned cfg t t2 = true :=
        (recently_warned_iff cfg g1 t t2).mpr
          ⟨t1, hg1w, le_trans hcool (le_max_right _ _)⟩
      exact judge_not_warnedNow_of_recent cfg g1 t t2 hrw g2 hj.symm

/-- Witness for C7: `g7` is warned at time 36000; a second `check` 300
seconds later (within the 600-second cooldown) is muted, not warned
again. -/
theorem warn_cooldown_idempotent_witness :
    g7.check cfgA 36000 = some (Verdict.WarnedNow, g71)
    ∧ (36300 : ℚ) - 36000 ≤ cfgA.warning_cooldown
    ∧ Verdict.WarnedMuted ≠ Verdict.WarnedNow :=
  ⟨g7_check, by norm_num [cfgA],
    (warn_cooldown_idempotent cfgA).2 g7 g71 36000 36300 g7_check
      (by norm_num [cfgA]) Verdict.WarnedMuted g71 g71_check⟩

/-- Claim C8: `update` clamps the CPU-time delta at zero (a sample lower
than the stored counter never registers negative activity), refreshes
`last_cpu_time` to `now` exactly when the delta exceeds
`active_usage * update`, and always overwrites `memory` and `cputime`. -/
theorem update_semantics (cfg : Config) (g : ProcessGroup)
    (cputime memory now : ℚ) :
    (g.update cfg cputime memory now).cputime_since_update =
        max (cputime - g.cputime) 0
    ∧ (cputime ≤ g.cputime →
        (g.update cfg cputime memory now).cputime_since_update = 0)
    ∧ (max (cputime - g.cputime) 0 > cfg.active_usage * cfg.update →
        (g.update cfg cputime memory now).last_cpu_time = now)
    ∧ (¬ max (cputime - g.cputime) 0 > cfg.active_usage * cfg.update →
        (g.update cfg cputime memory now).last_cpu_time = g.last_cpu_time)
    ∧ (g.update cfg cputime memory now).memory = memory
    ∧ (g.update cfg cputime memory now).cputime = cputime := by
  refine ⟨rfl, ?_, ?_, ?_, rfl, rfl⟩
  · intro h
    show max (cputime - g.cputime) 0 = 0
    exact max_eq_right (sub_nonpos.mpr h)
  · intro h
    show (if max (cputime - g.cputime) 0 > cfg.active_usage * cfg.update
        then now else g.last_cpu_time) = now
    rw [if_pos h]
  · intro h
    show (if max (cputime - g.cputime) 0 > cfg.active_usage * cfg.update
        then now else g.last_cpu_time) = g.last_cpu_time
    rw [if_neg h]

/-- Witness for C8: a CPU-time sample (1) below the stored counter (5)
yields a zero delta. -/
theorem update_semantics_witness :
    (1 : ℚ) ≤ 5 ∧ (g8.update cfgA 1 7 100).cputime_since_update = 0 :=
  ⟨by norm_num, (update_semantics cfgA g8 1 7 100).2.1 (by norm_num [g8])⟩

theorem reconcileStep_found (cfg : Config) (now : ℚ) (procs : ProcMap)
    (s : GroupSample) (p : ProcessGroup) (v : Verdict) (p2 : ProcessGroup)
    (hl : lookupProc procs s.pgid = some p)
    (hchk : (p.update cfg s.cputime s.memory now).check cfg now = some (v, p2)) :
    reconcileStep cfg now procs s = some (replaceProc procs s.pgid p2) := by
  unfold reconcileStep
  rw [hl]
  show ((p.update cfg s.cputime s.memory now).check cfg now).map
      (fun r => replaceProc procs s.pgid r.2) = _
  rw [hchk]
  rfl

theorem reconcileStep_new (cfg : Config) (now : ℚ) (procs : ProcMap)
    (s : GroupSample) (v : Verdict) (p2 : ProcessGroup)
    (hl : lookupProc procs s.pgid = none)
    (hchk : (ProcessGroup.init s.pgid s.user s.cputime s.memory now).check
        cfg now = some (v, p2)) :
    reconcileStep cfg now procs s = some (procs ++ [(s.pgid, p2)]) := by
  unfold reconcileStep
  rw [hl]
  show ((ProcessGroup.init s.pgid s.user s.cputime s.memory now).check
      cfg now).map (fun r => procs ++ [(s.pgid, r.2)]) = _
  rw [hchk]
  rfl

theorem c2_group_fixed :
    (ProcessGroup.init 1 "u" 0 50 0).update cfg2 0 50 0 =
      ProcessGroup.init 1 "u" 0 50 0 := by
  norm_num [ProcessGroup.update, ProcessGroup.init, cfg2]

theorem c2_group_check :
    (ProcessGroup.init 1 "u" 0 50 0).check cfg2 0 =
      some (Verdict.Ok, ProcessGroup.init 1 "u" 0 50 0) :=
  check_below cfg2 _ 0 (1/2) (by simp [listMin, tierCutoffs, cfg2])
    (by norm_num [ProcessGroup.memory_fraction, ProcessGroup.init, cfg2])

theorem c2_fixed :
    MemoryMonitor.update_processes cfg2 procs2 [⟨1, "u", 0, 50⟩] 0 =
      Except.ok procs2 := by
  have hlook : lookupProc procs2 1 = some (ProcessGroup.init 1 "u" 0 50 0) := by
    simp [lookupProc, procs2, List.find?]
  have hchk2 :
      ((ProcessGroup.init 1 "u" 0 50 0).update cfg2 0 50 0).check cfg2 0 =
        some (Verdict.Ok, ProcessGroup.init 1 "u" 0 50 0) := by
    rw [c2_group_fixed]
    exact c2_group_check
  have hstep :
      reconcileStep cfg2 0 procs2 ⟨1, "u", 0, 50⟩ =
        some (replaceProc procs2 1 (ProcessGroup.init 1 "u" 0 50 0)) :=
    reconcileStep_found cfg2 0 procs2 ⟨1, "u", 0, 50⟩
      (ProcessGroup.init 1 "u" 0 50 0) Verdict.Ok
      (ProcessGroup.init 1 "u" 0 50 0) hlook hchk2
  have hrepl : replaceProc procs2 1 (ProcessGroup.init 1 "u" 0 50 0) = procs2 := by
    simp [replaceProc, procs2]
  have hall : reconcileAll cfg2 0 procs2 [⟨1, "u", 0, 50⟩] = some procs2 := by
    unfold reconcileAll
    rw [hstep, hrepl]
    rfl
  unfold MemoryMonitor.update_processes
  rw [if_neg (by simp : ¬ ([⟨1, "u", 0, 50⟩] : List GroupSample).isEmpty = true)]
  rw [hall]
  show Except.ok (procs2.filter (fun e => decide (e.1 ∈ snapPgids [⟨1, "u", 0, 50⟩]))) = _
  simp [procs2, snapPgids]

theorem c2_step (n k : ℕ) :
    MemoryMonitor.check_cascade cfg2 sampler2 (n + 1) k procs2 =
      (match MemoryMonitor.check_cascade cfg2 sampler2 n (k + 1) procs2 with
       | CascadeOutcome.ret c w k2 p2 => CascadeOutcome.ret c (w + 1) k2 p2
       | o => o) := by
  have h1 : system_action cfg2 (sampler2 k).mem = SysAction.WarnAndTerminate := by
    norm_num [system_action, sampler2, cfg2]
  have h2 : MemoryMonitor.highest_usage_process procs2 =
      some (ProcessGroup.init 1 "u" 0 50 0) := by
    norm_num [MemoryMonitor.highest_usage_process, procs2, ProcessGroup.init]
  have h3 : MemoryMonitor.update_processes cfg2 procs2
      (sampler2 (k + 1)).groups (sampler2 (k + 1)).now = Except.ok procs2 :=
    c2_fixed
  simp only [MemoryMonitor.check_cascade, h1, h2, h3]

/-- Claim C2 counterexample: the terminate-and-re-check cascade does not
always terminate.  The kill is fire-and-forget, so with a sampler that
keeps reporting the same group and sub-threshold available memory
(`sampler2`), every iteration re-enters the terminate branch and the
recursion never reaches a base case, for any amount of fuel. -/
theorem cascade_can_spin_forever : cascadeRunsForever cfg2 sampler2 procs2 := by
  show ∀ fuel k, MemoryMonitor.check_cascade cfg2 sampler2 fuel k procs2 =
    CascadeOutcome.spin
  intro fuel
  induction fuel with
  | zero =>
    intro k
    rfl
  | succ n ih =>
    intro k
    rw [c2_step n k, ih (k + 1)]

/-- Claim C2 amended: the cascade is bounded only when the re-sampled
group sets actually shrink.  If every round `j` whose listing is nonempty
has at most `B - j` groups (each iteration's re-sample reflects the
removal), the recursion halts — by the condition clearing, by returning,
or by raising on an empty listing or an empty tracker — within `B + 2`
iterations from any start. -/
theorem cascade_terminates_of_shrinking_groups (cfg : Config)
    (sampler : ℕ → Round) (B : ℕ)
    (hB : ∀ j, (sampler j).groups.length ≠ 0 →
      (sampler j).groups.length + j ≤ B) :
    ∀ fuel k procs, B + 2 ≤ fuel + k → k ≤ B + 1 →
      MemoryMonitor.check_cascade cfg sampler fuel k procs ≠
        CascadeOutcome.spin := by
  intro fuel
  induction fuel with
  | zero =>
    intro k procs h1 h2
    exfalso
    omega
  | succ n ih =>
    intro k procs h1 h2
    simp only [MemoryMonitor.check_cascade]
    cases hact : system_action cfg (sampler k).mem with
    | Ok => simp [hact]
    | Warn => simp [hact]
    | WarnAndTerminate =>
      simp only [hact]
      cases hh : MemoryMonitor.highest_usage_process procs with
      | none => simp [hh]
      | some tgt =>
        simp only [hh]
        cases hup : MemoryMonitor.update_processes cfg procs
            (sampler (k + 1)).groups (sampler (k + 1)).now with
        | error e => simp [hup]
        | ok procs2 =>
          simp only [hup]
          have hlen : (sampler (k + 1)).groups.length ≠ 0 := by
            intro h0
            have hnil : (sampler (k + 1)).groups = [] :=
              List.length_eq_zero.mp h0
            rw [hnil] at hup
            simp [MemoryMonitor.update_processes] at hup
          have hk1 : k + 1 ≤ B := by
            have := hB (k + 1) hlen
            omega
          have hrec := ih (k + 1) procs2 (by omega) (by omega)
          cases hc : MemoryMonitor.check_cascade cfg sampler n (k + 1) procs2 with
          | ret c w k2 p2 => simp [hc]
          | err e => simp [hc]
          | spin => exact absurd hc hrec

/-- Witness for the amended C2: with `samplerW2` the kill takes effect
(round 1 lists no groups), and the cascade indeed halts within the
bound. -/
theorem cascade_terminates_of_shrinking_groups_witness :
    MemoryMonitor.check_cascade cfg2 samplerW2 3 0 procs2 ≠
      CascadeOutcome.spin := by
  refine cascade_terminates_of_shrinking_groups cfg2 samplerW2 1 ?_ 3 0 procs2
    (by omega) (by omega)
  intro j hj
  cases j with
  | zero => simp [samplerW2]
  | succ m =>
    exfalso
    apply hj
    simp [samplerW2]

/-- Claim C3 counterexample: one tick with an empty process listing makes
the polling loop exit with the uncaught `RuntimeError` instead of
skipping the tick. -/
theorem empty_listing_kills_loop :
    MemoryMonitor.main_loop cfgA sampler3 1 1 0 [] =
      LoopOutcome.err "ps output is empty." := by
  rfl

/-- Claim C3 amended: an empty process listing raises
`RuntimeError("ps output is empty.")` inside `fetch_processes` before any
tracked state is touched, and — since neither `update` nor the
`while True` loop catches anything — the exception exits the polling
loop: the condition is fatal, the tick is not skipped. -/
theorem empty_listing_error_fatal (cfg : Config) (sampler : ℕ → Round)
    (fuel n k : ℕ) (procs : ProcMap) (hempty : (sampler k).groups = []) :
    MemoryMonitor.update_processes cfg procs (sampler k).groups
        (sampler k).now = Except.error "ps output is empty."
    ∧ MemoryMonitor.main_loop cfg sampler fuel (n + 1) k procs =
        LoopOutcome.err "ps output is empty." := by
  have hup : MemoryMonitor.update_processes cfg procs (sampler k).groups
      (sampler k).now = Except.error "ps output is empty." := by
    rw [hempty]
    rfl
  refine ⟨hup, ?_⟩
  have htick : MemoryMonitor.tick cfg sampler fuel k procs =
      TickOutcome.err "ps output is empty." := by
    unfold MemoryMonitor.tick
    rw [hup]
  simp only [MemoryMonitor.main_loop]
  rw [htick]

/-- Witness for the amended C3: a concrete loop run over `sampler3` (empty
listing every round) dies on its first tick with the prior tracker state
intact but the loop gone. -/
theorem empty_listing_error_fatal_witness :
    MemoryMonitor.update_processes cfgA [(1, gW9)] (sampler3 0).groups
        (sampler3 0).now = Except.error "ps output is empty."
    ∧ MemoryMonitor.main_loop cfgA sampler3 5 1 0 [(1, gW9)] =
        LoopOutcome.err "ps output is empty." :=
  empty_listing_error_fatal cfgA sampler3 5 0 0 [(1, gW9)] rfl

/-- Claim C5 counterexample: with zero tracked groups the heaviest-group
fold leaves its result variable unassigned (the Python
`UnboundLocalError`), and mid-cascade this exception errors the whole
tick — there is no `NoGroupsTracked` signal and no downgrade to a plain
warning. -/
theorem no_groups_unbound_local :
    MemoryMonitor.highest_usage_process ([] : ProcMap) = none
    ∧ MemoryMonitor.check_cascade cfg2 sampler2 1 0 [] =
        CascadeOutcome.err "UnboundLocalError" := by
  constructor
  · rfl
  · have h1 : system_action cfg2 (sampler2 0).mem =
        SysAction.WarnAndTerminate := by
      norm_num [system_action, sampler2, cfg2]
    show MemoryMonitor.check_cascade cfg2 sampler2 (0 + 1) 0 [] = _
    simp only [MemoryMonitor.check_cascade, h1]
    rfl

/-- Claim C5 amended: with zero tracked groups, `highest_usage_process`
yields no value (an `UnboundLocalError` in the source), and whenever the
terminate branch is taken with an empty tracker the cascade aborts with
that error instead of surfacing a plain `Warn`. -/
theorem no_groups_cascade_errors (cfg : Config) (sampler : ℕ → Round)
    (fuel k : ℕ)
    (hterm : system_action cfg (sampler k).mem = SysAction.WarnAndTerminate) :
    MemoryMonitor.highest_usage_process ([] : ProcMap) = none
    ∧ MemoryMonitor.check_cascade cfg sampler (fuel + 1) k [] =
        CascadeOutcome.err "UnboundLocalError" := by
  refine ⟨rfl, ?_⟩
  simp only [MemoryMonitor.check_cascade, hterm]
  rfl

/-- Witness for the amended C5. -/
theorem no_groups_cascade_errors_witness :
    MemoryMonitor.highest_usage_process ([] : ProcMap) = none
    ∧ MemoryMonitor.check_cascade cfg2 sampler2 3 0 [] =
        CascadeOutcome.err "UnboundLocalError" :=
  no_groups_cascade_errors cfg2 sampler2 2 0
    (by norm_num [system_action, sampler2, cfg2])

/-- Claim C4: `MemoryMonitor.check` decides in fixed order with first
match winning — terminate branch (only when enabled), then the critical
warning, else OK — and on the `Warn` branch a system-level warning is
delivered on every such tick, with no cooldown; on `Ok` none is sent. -/
theorem sysguard_fixed_order (cfg : Config) (mem : SystemMem)
    (htot : 0 < mem.total) :
    (system_action cfg mem = SysAction.WarnAndTerminate ↔
      cfg.terminate_active = true ∧
        mem.available / mem.total < cfg.terminate_fraction)
    ∧ (system_action cfg mem = SysAction.Warn ↔
      ¬(cfg.terminate_active = true ∧
          mem.available / mem.total < cfg.terminate_fraction)
        ∧ mem.available / mem.total < cfg.critical_fraction)
    ∧ (system_action cfg mem = SysAction.Ok ↔
      ¬(cfg.terminate_active = true ∧
          mem.available / mem.total < cfg.terminate_fraction)
        ∧ ¬ mem.available / mem.total < cfg.critical_fraction)
    ∧ (∀ (sampler : ℕ → Round) (fuel k : ℕ) (procs : ProcMap),
        (sampler k).mem = mem →
        (system_action cfg mem = SysAction.Warn →
          MemoryMonitor.check_cascade cfg sampler (fuel + 1) k procs =
            CascadeOutcome.ret 1 1 (k + 1) procs)
        ∧ (system_action cfg mem = SysAction.Ok →
          MemoryMonitor.check_cascade cfg sampler (fuel + 1) k procs =
            CascadeOutcome.ret 0 0 (k + 1) procs)) := by
  have hdiv1 : mem.available / mem.total < cfg.terminate_fraction ↔
      mem.available < cfg.terminate_fraction * mem.total := div_lt_iff₀ htot
  have hdiv2 : mem.available / mem.total < cfg.critical_fraction ↔
      mem.available < cfg.critical_fraction * mem.total := div_lt_iff₀ htot
  have e1 : system_action cfg mem = SysAction.WarnAndTerminate ↔
      (cfg.terminate_active = true ∧
        mem.available < cfg.terminate_fraction * mem.total) := by
    unfold system_action
    split_ifs with h1 h2
    · simp [h1]
    · simp [h1]
    · simp [h1]
  have e2 : system_action cfg mem = SysAction.Warn ↔
      (¬(cfg.terminate_active = true ∧
          mem.available < cfg.terminate_fraction * mem.total)
        ∧ mem.available < cfg.critical_fraction * mem.total) := by
    unfold system_action
    split_ifs with h1 h2
    · simp [h1]
    · simp [h1, h2]
    · simp [h1, h2]
  have e3 : system_action cfg mem = SysAction.Ok ↔
      (¬(cfg.terminate_active = true ∧
          mem.available < cfg.terminate_fraction * mem.total)
        ∧ ¬ mem.available < cfg.critical_fraction * mem.total) := by
    unfold system_action
    split_ifs with h1 h2
    · simp [h1]
    · simp [h1, h2]
    · simp [h1, h2]
  refine ⟨?_, ?_, ?_, ?_⟩
  · rw [e1, hdiv1]
  · rw [e2, hdiv1, hdiv2]
  · rw [e3, hdiv1, hdiv2]
  · intro sampler fuel k procs hk
    constructor
    · intro hw
      simp only [MemoryMonitor.check_cascade, hk, hw]
    · intro ho
      simp only [MemoryMonitor.check_cascade, hk, ho]

/-- Witness for C4: at 5GB available of 100GB with termination disabled,
the decision is `Warn`. -/
theorem sysguard_fixed_order_witness :
    (0 : ℚ) < mem4.total
    ∧ (system_action cfgA mem4 = SysAction.Warn ↔
        ¬(cfgA.terminate_active = true ∧
            mem4.available / mem4.total < cfgA.terminate_fraction)
          ∧ mem4.available / mem4.total < cfgA.critical_fraction) :=
  ⟨by norm_num [mem4], (sysguard_fixed_order cfgA mem4 (by norm_num [mem4])).2.1⟩

/-! ### Association-list lemmas for the tracker dict -/

theorem lookupProc_eq_none (procs : ProcMap) (i : ℕ) :
    lookupProc procs i = none ↔ i ∉ procs.map Prod.fst := by
  unfold lookupProc
  rw [Option.map_eq_none', List.find?_eq_none]
  constructor
  · intro h hmem
    obtain ⟨e, he, hei⟩ := List.mem_map.mp hmem
    exact absurd (decide_eq_true hei) (h e he)
  · intro h e he hdec
    exact h (List.mem_map.mpr ⟨e, he, of_decide_eq_true hdec⟩)

theorem lookupProc_some_mem (procs : ProcMap) (i : ℕ) (p : ProcessGroup)
    (h : lookupProc procs i = some p) : (i, p) ∈ procs := by
  unfold lookupProc at h
  rw [Option.map_eq_some'] at h
  obtain ⟨e, he, hsnd⟩ := h
  have hmem := List.mem_of_find?_eq_some he
  have hpred := List.find?_some he
  have h1 : e.1 = i := of_decide_eq_true hpred
  obtain ⟨a, b⟩ := e
  dsimp at h1 hsnd
  subst h1
  subst hsnd
  exact hmem

theorem lookupProc_some_of_mem (procs : ProcMap) (i : ℕ) (p : ProcessGroup)
    (hnd : (procs.map Prod.fst).Nodup) (h : (i, p) ∈ procs) :
    lookupProc procs i = some p := by
  induction procs with
  | nil => cases h
  | cons e rest ih =>
    rw [List.map_cons, List.nodup_cons] at hnd
    rcases List.mem_cons.mp h with he | hr
    · subst he
      simp [lookupProc, List.find?]
    · have hne : e.1 ≠ i := by
        intro hei
        apply hnd.1
        rw [hei]
        exact List.mem_map.mpr ⟨(i, p), hr, rfl⟩
      simpa [lookupProc, List.find?, hne] using ih hnd.2 hr

theorem map_fst_replaceProc (procs : ProcMap) (i : ℕ) (p : ProcessGroup) :
    (replaceProc procs i p).map Prod.fst = procs.map Prod.fst := by
  induction procs with
  | nil => rfl
  | cons e rest ih =>
    simp only [replaceProc, List.map_cons] at ih ⊢
    by_cases h : e.1 = i
    · rw [if_pos h, ih]
      simp [h]
    · rw [if_neg h, ih]

theorem mem_replaceProc_ne (procs : ProcMap) (i : ℕ) (p : ProcessGroup)
    (j : ℕ) (q : ProcessGroup) (hij : j ≠ i) :
    ((j, q) ∈ replaceProc procs i p) ↔ (j, q) ∈ procs := by
  induction procs with
  | nil => simp [replaceProc]
  | cons e rest ih =>
    simp only [replaceProc, List.map_cons, List.mem_cons] at ih ⊢
    constructor
    · rintro (h | h)
      · by_cases he : e.1 = i
        · rw [if_pos he] at h
          exact absurd (congrArg Prod.fst h) hij
        · rw [if_neg he] at h
          exact Or.inl h
      · exact Or.inr (ih.mp h)
    · rintro (h | h)
      · by_cases he : e.1 = i
        · exact absurd ((congrArg Prod.fst h).trans he) hij
        · refine Or.inl ?_
          rw [if_neg he]
          exact h
      · exact Or.inr (ih.mpr h)

theorem mem_replaceProc_self (procs : ProcMap) (i : ℕ) (p : ProcessGroup)
    (h : i ∈ procs.map Prod.fst) : (i, p) ∈ replaceProc procs i p := by
  induction procs with
  | nil => simp at h
  | cons e rest ih =>
    simp only [List.map_cons, List.mem_cons] at h
    simp only [replaceProc, List.map_cons, List.mem_cons]
    rcases h with h | h
    · refine Or.inl ?_
      rw [if_pos h.symm]
    · refine Or.inr ?_
      simpa [replaceProc] using ih h

/-- The full behaviour of the `for pgid in df.index` loop: it succeeds
(when the tier table is nonempty), keeps the key set equal to the old keys
plus the snapshot's pgids, leaves entries absent from the snapshot
untouched, routes every surviving entry through `update` followed by
`check`, and appends a checked fresh group for every new pgid. -/
theorem reconcileAll_spec (cfg : Config) (now : ℚ)
    (hne : cfg.idle_timeout_hours ≠ []) :
    ∀ (snap : List GroupSample) (procs : ProcMap),
      (procs.map Prod.fst).Nodup →
      (snapPgids snap).Nodup →
      ∃ procs2, reconcileAll cfg now procs snap = some procs2
        ∧ (procs2.map Prod.fst).Nodup
        ∧ (∀ i, i ∈ procs2.map Prod.fst ↔
            i ∈ procs.map Prod.fst ∨ i ∈ snapPgids snap)
        ∧ (∀ i p, (i, p) ∈ procs → i ∉ snapPgids snap → (i, p) ∈ procs2)
        ∧ (∀ s ∈ snap, ∀ p, (s.pgid, p) ∈ procs →
            ∃ v p2, (p.update cfg s.cputime s.memory now).check cfg now =
                some (v, p2) ∧ (s.pgid, p2) ∈ procs2)
        ∧ (∀ s ∈ snap, s.pgid ∉ procs.map Prod.fst →
            ∃ v p2, (ProcessGroup.init s.pgid s.user s.cputime s.memory
                now).check cfg now = some (v, p2) ∧ (s.pgid, p2) ∈ procs2) := by
  intro snap
  induction snap with
  | nil =>
    intro procs hk hs
    refine ⟨procs, rfl, hk, ?_, ?_, ?_, ?_⟩
    · intro i
      simp [snapPgids]
    · intro i p hp _
      exact hp
    · intro s hs2
      cases hs2
    · intro s hs2
      cases hs2
  | cons s rest ih =>
    intro procs hk hs
    have hcons : snapPgids (s :: rest) = s.pgid :: snapPgids rest := rfl
    rw [hcons, List.nodup_cons] at hs
    obtain ⟨hs1, hs2⟩ := hs
    cases hl : lookupProc procs s.pgid with
    | some p0 =>
      have hp0mem : (s.pgid, p0) ∈ procs :=
        lookupProc_some_mem procs s.pgid p0 hl
      have hp0key : s.pgid ∈ procs.map Prod.fst :=
        List.mem_map.mpr ⟨(s.pgid, p0), hp0mem, rfl⟩
      obtain ⟨⟨v0, p02⟩, hchk⟩ :=
        check_isSome cfg (p0.update cfg s.cputime s.memory now) now hne
      have hstep := reconcileStep_found cfg now procs s p0 v0 p02 hl hchk
      have hk1 : ((replaceProc procs s.pgid p02).map Prod.fst).Nodup := by
        rw [map_fst_replaceProc]
        exact hk
      obtain ⟨procs2, hall, hnd2, hkeys2, hpres2, hupd2, hnew2⟩ :=
        ih (replaceProc procs s.pgid p02) hk1 hs2
      refine ⟨procs2, ?_, hnd2, ?_, ?_, ?_, ?_⟩
      · show (reconcileStep cfg now procs s).bind
            (fun x => reconcileAll cfg now x rest) = some procs2
        rw [hstep, Option.some_bind]
        exact hall
      · intro i
        rw [hkeys2 i, map_fst_replaceProc, hcons]
        constructor
        · rintro (h | h)
          · exact Or.inl h
          · exact Or.inr (List.mem_cons.mpr (Or.inr h))
        · rintro (h | h)
          · exact Or.inl h
          · rcases List.mem_cons.mp h with h1 | h1
            · exact Or.inl (h1 ▸ hp0key)
            · exact Or.inr h1
      · intro i p hp hni
        rw [hcons] at hni
        have hni1 : i ≠ s.pgid := fun he => hni (List.mem_cons.mpr (Or.inl he))
        have hni2 : i ∉ snapPgids rest :=
          fun he => hni (List.mem_cons.mpr (Or.inr he))
        exact hpres2 i p
          ((mem_replaceProc_ne procs s.pgid p02 i p hni1).mpr hp) hni2
      · intro s2 hs2mem p hp
        rcases List.mem_cons.mp hs2mem with heq | hmem
        · subst heq
          have hlp : lookupProc procs s2.pgid = some p :=
            lookupProc_some_of_mem procs s2.pgid p hk hp
          rw [hl] at hlp
          cases Option.some.inj hlp
          refine ⟨v0, p02, hchk, ?_⟩
          exact hpres2 _ _
            (mem_replaceProc_self procs s2.pgid p02 hp0key) hs1
        · have hne2 : s2.pgid ≠ s.pgid := by
            intro he
            exact hs1 (he ▸ List.mem_map.mpr ⟨s2, hmem, rfl⟩)
          exact hupd2 s2 hmem p
            ((mem_replaceProc_ne procs s.pgid p02 s2.pgid p hne2).mpr hp)
      · intro s2 hs2mem hnot
        rcases List.mem_cons.mp hs2mem with heq | hmem
        · subst heq
          exact absurd hp0key hnot
        · have hnot1 : s2.pgid ∉ (replaceProc procs s.pgid p02).map Prod.fst := by
            rw [map_fst_replaceProc]
            exact hnot
          exact hnew2 s2 hmem hnot1
    | none =>
      have hni : s.pgid ∉ procs.map Prod.fst :=
        (lookupProc_eq_none procs s.pgid).mp hl
      obtain ⟨⟨v0, p02⟩, hchk⟩ := check_isSome cfg
        (ProcessGroup.init s.pgid s.user s.cputime s.memory now) now hne
      have hstep := reconcileStep_new cfg now procs s v0 p02 hl hchk
      have hkeys1 : (procs ++ [(s.pgid, p02)]).map Prod.fst =
          procs.map Prod.fst ++ [s.pgid] := by
        rw [List.map_append]
        rfl
      have hk1 : ((procs ++ [(s.pgid, p02)]).map Prod.fst).Nodup := by
        rw [hkeys1]
        simp [List.nodup_append, hk, hni]
      obtain ⟨procs2, hall, hnd2, hkeys2, hpres2, hupd2, hnew2⟩ :=
        ih (procs ++ [(s.pgid, p02)]) hk1 hs2
      refine ⟨procs2, ?_, hnd2, ?_, ?_, ?_, ?_⟩
      · show (reconcileStep cfg now procs s).bind
            (fun x => reconcileAll cfg now x rest) = some procs2
        rw [hstep, Option.some_bind]
        exact hall
      · intro i
        rw [hkeys2 i, hkeys1, hcons]
        simp only [List.mem_append, List.mem_singleton, List.mem_cons]
        tauto
      · intro i p hp hni2
        rw [hcons] at hni2
        have hni3 : i ∉ snapPgids rest :=
          fun he => hni2 (List.mem_cons.mpr (Or.inr he))
        exact hpres2 i p (List.mem_append.mpr (Or.inl hp)) hni3
      · intro s2 hs2mem p hp
        rcases List.mem_cons.mp hs2mem with heq | hmem
        · subst heq
          exact absurd (List.mem_map.mpr ⟨(s2.pgid, p), hp, rfl⟩) hni
        · exact hupd2 s2 hmem p (List.mem_append.mpr (Or.inl hp))
      · intro s2 hs2mem hnot
        rcases List.mem_cons.mp hs2mem with heq | hmem
        · subst heq
          refine ⟨v0, p02, hchk, ?_⟩
          refine hpres2 _ _ ?_ hs1
          exact List.mem_append.mpr (Or.inr (List.mem_singleton.mpr rfl))
        · have hne2 : s2.pgid ≠ s.pgid := by
            intro he
            exact hs1 (he ▸ List.mem_map.mpr ⟨s2, hmem, rfl⟩)
          have hnot1 : s2.pgid ∉ (procs ++ [(s.pgid, p02)]).map Prod.fst := by
            rw [hkeys1]
            simp only [List.mem_append, List.mem_singleton]
            rintro (h | h)
            · exact hnot h
            · exact hne2 h
          exact hnew2 s2 hmem hnot1

/-- Claim C9 amended: `update_processes` removes exactly the pgids absent
from the snapshot and creates every new pgid as a fresh group
(`lastActiveAt = now`, no warning history, assuming non-negative tier
timeouts), but a surviving group's state is not literally preserved: the
entry keeps its identity and history, passed through `update` (which
refreshes the idle clock when the group was active) and `check` (which
can increment the warning count and stamp the warning time on this very
tick). -/
theorem update_processes_reconcile (cfg : Config) (procs : ProcMap)
    (snap : List GroupSample) (now : ℚ)
    (hne : cfg.idle_timeout_hours ≠ [])
    (ht0 : ∀ p ∈ cfg.idle_timeout_hours, 0 ≤ p.2)
    (hkeys : (procs.map Prod.fst).Nodup)
    (hsnap : (snapPgids snap).Nodup)
    (hnz : snap ≠ []) :
    ∃ procs2,
      MemoryMonitor.update_processes cfg procs snap now = Except.ok procs2
      ∧ (∀ i, i ∈ procs2.map Prod.fst ↔ i ∈ snapPgids snap)
      ∧ (∀ s ∈ snap, s.pgid ∉ procs.map Prod.fst →
          (s.pgid, ProcessGroup.init s.pgid s.user s.cputime s.memory now)
            ∈ procs2)
      ∧ (∀ s ∈ snap, ∀ p, (s.pgid, p) ∈ procs →
          ∃ v p2, (p.update cfg s.cputime s.memory now).check cfg now =
              some (v, p2) ∧ (s.pgid, p2) ∈ procs2) := by
  obtain ⟨pAll, hall, hndAll, hkeysAll, hpresAll, hupdAll, hnewAll⟩ :=
    reconcileAll_spec cfg now hne snap procs hkeys hsnap
  have hnem : ¬ snap.isEmpty = true := by
    cases snap with
    | nil => exact absurd rfl hnz
    | cons a l => simp
  refine ⟨pAll.filter (fun e => decide (e.1 ∈ snapPgids snap)), ?_, ?_, ?_, ?_⟩
  · unfold MemoryMonitor.update_processes
    rw [if_neg hnem, hall]
  · intro i
    constructor
    · intro hi
      obtain ⟨e, he, hei⟩ := List.mem_map.mp hi
      have hf := List.mem_filter.mp he
      exact hei ▸ of_decide_eq_true hf.2
    · intro hi
      obtain ⟨e, he, hei⟩ := List.mem_map.mp ((hkeysAll i).mpr (Or.inr hi))
      refine List.mem_map.mpr ⟨e, List.mem_filter.mpr ⟨he, ?_⟩, hei⟩
      have : e.1 ∈ snapPgids snap := by
        rw [hei]
        exact hi
      exact decide_eq_true this
  · intro s hs hnot
    obtain ⟨v, p2, hchk, hmem⟩ := hnewAll s hs hnot
    rw [check_fresh cfg s.pgid s.user s.cputime s.memory now hne ht0] at hchk
    simp only [Option.some.injEq, Prod.mk.injEq] at hchk
    rw [hchk.2]
    exact List.mem_filter.mpr
      ⟨hmem, decide_eq_true (List.mem_map.mpr ⟨s, hs, rfl⟩)⟩
  · intro s hs p hp
    obtain ⟨v, p2, hchk, hmem⟩ := hupdAll s hs p hp
    exact ⟨v, p2, hchk, List.mem_filter.mpr
      ⟨hmem, decide_eq_true (List.mem_map.mpr ⟨s, hs, rfl⟩)⟩⟩

/-- Witness for the amended C9: one surviving pgid and one new pgid. -/
theorem update_processes_reconcile_witness :
    ∃ procs2,
      MemoryMonitor.update_processes cfgA [(1, gW9)] snapW9 5 = Except.ok procs2
      ∧ (∀ i, i ∈ procs2.map Prod.fst ↔ i ∈ snapPgids snapW9)
      ∧ (∀ s ∈ snapW9, s.pgid ∉ [(1, gW9)].map Prod.fst →
          (s.pgid, ProcessGroup.init s.pgid s.user s.cputime s.memory 5)
            ∈ procs2)
      ∧ (∀ s ∈ snapW9, ∀ p, (s.pgid, p) ∈ [(1, gW9)] →
          ∃ v p2, (p.update cfgA s.cputime s.memory 5).check cfgA 5 =
              some (v, p2) ∧ (s.pgid, p2) ∈ procs2) :=
  update_processes_reconcile cfgA [(1, gW9)] snapW9 5 cfgA_tiers_ne
    (by
      intro p hp
      simp only [cfgA] at hp
      fin_cases hp <;> norm_num)
    (by simp)
    (by simp [snapPgids, snapW9])
    (by simp [snapW9])

theorem gOld9_update : gOld9.update cfgA 100 60 36000 = gOld9 := by
  norm_num [ProcessGroup.update, gOld9, cfgA]

theorem gOld9_fraction : gOld9.memory_fraction cfgA = 3/5 := by
  norm_num [ProcessGroup.memory_fraction, gOld9, cfgA]

theorem gOld9_filter :
    (tierCutoffs cfgA.idle_timeout_hours).filter
      (fun x => decide (x < gOld9.memory_fraction cfgA)) = [1/2, 1/5, 1/10] := by
  rw [cfgA_cutoffs]
  simp only [gOld9_fraction]
  norm_num [List.filter]

theorem gOld9_check : gOld9.check cfgA 36000 = some (Verdict.WarnedNow, gNew9) := by
  have h := check_eval cfgA gOld9 36000 (1/10) (1/2) 0 cfgA_min
    (by rw [gOld9_fraction]; norm_num)
    (by rw [gOld9_filter]; norm_num [listMax, max_def]) cfgA_lookup_half
  rw [h]
  unfold ProcessGroup.judge_idle
  rw [if_pos (show gOld9.idle_hours 36000 > 0 by
    norm_num [ProcessGroup.idle_hours, ProcessGroup.idle_seconds, gOld9])]
  rw [if_pos (show ¬ gOld9.recently_warned cfgA 0 36000 = true by
    simp [ProcessGroup.recently_warned, gOld9])]
  simp [ProcessGroup.warn, gNew9, gOld9]

/-- Claim C9 counterexample: a pgid present in two consecutive snapshots
does not keep its warning state through `update_processes` — the per-tick
`check` inside the reconcile loop warns the surviving heavy idle group,
bumping `total_warnings` from 0 to 1 and stamping `last_warning`. -/
theorem reconcile_mutates_surviving_group :
    MemoryMonitor.update_processes cfgA [(7, gOld9)] snap9 36000 =
      Except.ok [(7, gNew9)]
    ∧ gNew9.total_warnings ≠ gOld9.total_warnings := by
  constructor
  · have hlook : lookupProc [(7, gOld9)] 7 = some gOld9 := by
      simp [lookupProc, List.find?]
    have hchk2 : (gOld9.update cfgA 100 60 36000).check cfgA 36000 =
        some (Verdict.WarnedNow, gNew9) := by
      rw [gOld9_update]
      exact gOld9_check
    have hstep : reconcileStep cfgA 36000 [(7, gOld9)] ⟨7, "u", 100, 60⟩ =
        some (replaceProc [(7, gOld9)] 7 gNew9) :=
      reconcileStep_found cfgA 36000 [(7, gOld9)] ⟨7, "u", 100, 60⟩ gOld9
        Verdict.WarnedNow gNew9 hlook hchk2
    have hrepl : replaceProc [(7, gOld9)] 7 gNew9 = [(7, gNew9)] := by
      simp [replaceProc]
    have hall : reconcileAll cfgA 36000 [(7, gOld9)] snap9 =
        some [(7, gNew9)] := by
      show (reconcileStep cfgA 36000 [(7, gOld9)] ⟨7, "u", 100, 60⟩).bind
          (fun x => reconcileAll cfgA 36000 x []) = _
      rw [hstep, Option.some_bind, hrepl]
      rfl
    unfold MemoryMonitor.update_processes
    rw [if_neg (show ¬ snap9.isEmpty = true by simp [snap9]), hall]
    show Except.ok ([(7, gNew9)].filter
      (fun e => decide (e.1 ∈ snapPgids snap9))) = _
    simp [snapPgids, snap9]
  · simp [gNew9, gOld9]

end MemMonitor
